import Mathlib

/-!
Verification development for the patch-bay simulator.

Shallow embedding of three subsystems of the repository:
  * the cross-room signal registry (src/unnamed/part_005, the
    CrossRoomRegistry module),
  * the interaction controller (src/js/ui/interactions.js) together with
    the hit-testing helpers it uses (src/js/models/Port.js and the local
    bezier helpers of interactions.js),
  * the render-invalidation scheduler (src/js/ui/renderer.js draw tick and
    the layer manager's dirty flags).

Modelling conventions:
  * JavaScript objects used as string-keyed dictionaries become association
    lists (key order is insertion order, as in JS; keys are unique).
    `obj[k] = v` keeps the position of an existing key and appends a new
    one, `delete obj[k]` removes the key, both exactly as in JS.
  * JS numbers become rationals.  The code compares Euclidean distances
    (computed with Math.sqrt) against non-negative thresholds; the
    embedding compares squared distances against squared thresholds, which
    is equivalent because sqrt is monotone and both sides are non-negative.
    No other use of irrational arithmetic occurs in the embedded code.
  * The falsiness guards `if (!portId || !roomId) return` test for the
    empty string (the ids are strings).  Color values are always `[r,g,b]`
    arrays at every call site, and a JS array is always truthy, so the
    `!color` guard never fires and is dropped.
  * console.log / console.warn calls are side-effect free and dropped.
-/

namespace PatchBay

/-- RGB color triple as stored in the JS code (for example [100, 200, 255]). -/
abbrev Color := List Int

/-! ### Association-list helpers (JS object-as-dictionary semantics) -/

/-- Lookup of `obj[k]`. -/
def alGet {β : Type} : List (String × β) → String → Option β
  | [], _ => none
  | (k', v) :: rest, k => if k' = k then some v else alGet rest k

/-- Assignment `obj[k] = v`: replace in place when the key exists, append
otherwise (JS objects keep insertion order of keys). -/
def alSet {β : Type} : List (String × β) → String → β → List (String × β)
  | [], k, v => [(k, v)]
  | (k', v') :: rest, k, v =>
      if k' = k then (k, v) :: rest else (k', v') :: alSet rest k v

/-- Deletion `delete obj[k]`. -/
def alDel {β : Type} : List (String × β) → String → List (String × β)
  | [], _ => []
  | (k', v') :: rest, k =>
      if k' = k then rest else (k', v') :: alDel rest k

/-- In-place mutation of the value stored under an existing key `k`
(`obj[k].field = ...` in JS); no effect when the key is absent. -/
def alModify {β : Type} : List (String × β) → String → (β → β) → List (String × β)
  | [], _, _ => []
  | (k', v) :: rest, k, f =>
      if k' = k then (k', f v) :: rest else (k', v) :: alModify rest k f

/-! ### Cross-room signal registry (src/unnamed/part_005) -/

/-- A signal entry `{ color: [r,g,b], sourceRoom: 'roomId' }`. -/
structure Signal where
  color : Color
  sourceRoom : String
deriving DecidableEq, Repr

/-- The `masterSource` record `{ roomId: 'roomId', connected: true }`. -/
structure MasterSource where
  roomId : String
  connected : Bool
deriving DecidableEq, Repr

/-- One registry entry, as documented at the top of part_005:
`{ rooms: [...], masterSource, signals: {roomId: {...}}, connections: {roomId: bool} }`.
The `masterSource` and `connections` fields are created lazily by the JS
code, hence the `Option` (absent field = `none`). -/
structure PortEntry where
  rooms : List String
  masterSource : Option MasterSource
  signals : List (String × Signal)
  connections : Option (List (String × Bool))
deriving DecidableEq, Repr

/-- The global `crossRoomPortRegistry` object, keyed by port id. -/
abbrev Registry := List (String × PortEntry)

/-- `registerPort(portId, roomId)` from part_005. -/
def registerPort (reg : Registry) (portId roomId : String) : Registry :=
  if portId = "" ∨ roomId = "" then reg
  else
    let reg := match alGet reg portId with
      | none => alSet reg portId
          { rooms := [], masterSource := none, signals := [], connections := none }
      | some _ => reg
    alModify reg portId (fun e =>
      if e.rooms.contains roomId then e else { e with rooms := e.rooms ++ [roomId] })

/-- `unregisterPort(portId, roomId)` from part_005.  `splice(indexOf(roomId), 1)`
removes the first occurrence of the room when present (no-op otherwise),
which is exactly `List.erase`. -/
def unregisterPort (reg : Registry) (portId roomId : String) : Registry :=
  if portId = "" ∨ roomId = "" then reg
  else match alGet reg portId with
  | none => reg
  | some _ =>
    let reg := alModify reg portId (fun e =>
      { e with rooms := e.rooms.erase roomId, signals := alDel e.signals roomId })
    match alGet reg portId with
    | some e => if e.rooms = [] then alDel reg portId else reg
    | none => reg

/-- `setPortConnectionStatus(portId, roomId, connected)` from part_005.
The `if (!registry.connections) registry.connections = {}` step followed by
the assignment is modelled by `getD []` plus `alSet`. -/
def setPortConnectionStatus (reg : Registry) (portId roomId : String)
    (connected : Bool) : Registry :=
  if portId = "" ∨ roomId = "" then reg
  else
    let reg := match alGet reg portId with
      | none => registerPort reg portId roomId
      | some _ => reg
    alModify reg portId (fun e =>
      { e with connections := some (alSet (e.connections.getD []) roomId connected) })

/-- `propagateSignalToOtherRooms(portId, sourceRoomId, color)` from part_005:
for every registered room other than the source, write a mirrored signal
whose sourceRoom is the originating room. -/
def propagateSignalToOtherRooms (reg : Registry) (portId sourceRoomId : String)
    (color : Color) : Registry :=
  match alGet reg portId with
  | none => reg
  | some _ =>
    alModify reg portId (fun e =>
      { e with signals := e.rooms.foldl (fun sigs roomId =>
          if roomId ≠ sourceRoomId then alSet sigs roomId ⟨color, sourceRoomId⟩
          else sigs) e.signals })

/-- `setMasterSource(portId, roomId, color)` from part_005. -/
def setMasterSource (reg : Registry) (portId roomId : String) (color : Color) :
    Registry :=
  if portId = "" ∨ roomId = "" then reg
  else
    let reg := match alGet reg portId with
      | none => registerPort reg portId roomId
      | some _ => reg
    let reg := alModify reg portId (fun e =>
      { e with masterSource := some ⟨roomId, true⟩,
               connections := some (alSet (e.connections.getD []) roomId true),
               signals := alSet e.signals roomId ⟨color, roomId⟩ })
    propagateSignalToOtherRooms reg portId roomId color

/-- `setPortSignal(portId, roomId, color)` from part_005.  The source reads
`masterSource.roomId` after calling `setPortConnectionStatus`, which never
changes `masterSource`, so reading `ms` beforehand is the same value. -/
def setPortSignal (reg : Registry) (portId roomId : String) (color : Color) :
    Registry :=
  if portId = "" ∨ roomId = "" then reg
  else
    let reg := match alGet reg portId with
      | none => registerPort reg portId roomId
      | some _ => reg
    match alGet reg portId with
    | none => reg
    | some e =>
      match e.masterSource with
      | none => setMasterSource reg portId roomId color
      | some ms =>
        let reg := setPortConnectionStatus reg portId roomId true
        alModify reg portId (fun e' =>
          { e' with signals := alSet e'.signals roomId ⟨color, ms.roomId⟩ })

/-- `removePortSignal(portId, roomId)` from part_005: delete this room's
signal entry; then, when any remaining signal was sourced from this room
(it was the master) or no signal remains, wipe the whole signals map. -/
def removePortSignal (reg : Registry) (portId roomId : String) : Registry :=
  if portId = "" ∨ roomId = "" then reg
  else match alGet reg portId with
  | none => reg
  | some _ =>
    let reg := alModify reg portId (fun e =>
      { e with signals := alDel e.signals roomId })
    alModify reg portId (fun e =>
      let remainingSignals := e.signals.map (·.2)
      if remainingSignals.any (fun s => s.sourceRoom == roomId)
          || remainingSignals.isEmpty
      then { e with signals := [] } else e)

/-- `getPortSignalColor(portId, roomId)` from part_005. -/
def getPortSignalColor (reg : Registry) (portId roomId : String) : Option Color :=
  if portId = "" ∨ roomId = "" then none
  else match alGet reg portId with
  | none => none
  | some e => (alGet e.signals roomId).map (·.color)

/-- `getPortCrossRoomSignalColor(portId, currentRoomId)` from part_005:
first signal (in key insertion order) whose sourceRoom differs. -/
def getPortCrossRoomSignalColor (reg : Registry) (portId currentRoomId : String) :
    Option Color :=
  if portId = "" ∨ currentRoomId = "" then none
  else match alGet reg portId with
  | none => none
  | some e => (e.signals.find? (fun pr => pr.2.sourceRoom != currentRoomId)).map
      (fun pr => pr.2.color)

/-- `getRoomsWithPort(portId)` from part_005. -/
def getRoomsWithPort (reg : Registry) (portId : String) : List String :=
  if portId = "" then []
  else match alGet reg portId with
  | none => []
  | some e => e.rooms

/-- `hasPortCrossRoomSignal(portId, currentRoomId)` from part_005: true iff
some signal entry of the identifier has a sourceRoom other than the current
room. -/
def hasPortCrossRoomSignal (reg : Registry) (portId currentRoomId : String) :
    Bool :=
  if portId = "" ∨ currentRoomId = "" then false
  else match alGet reg portId with
  | none => false
  | some e => e.signals.any (fun pr => pr.2.sourceRoom != currentRoomId)

/-- `getPortType(portId, roomId)` from part_005. -/
def getPortType (reg : Registry) (portId roomId : String) : String :=
  if portId = "" ∨ roomId = "" then "unconnected"
  else match alGet reg portId with
  | none => "unconnected"
  | some e =>
    let isConnectedInRoom := (alGet (e.connections.getD []) roomId).getD false
    let isMasterSource := match e.masterSource with
      | some ms => ms.roomId == roomId
      | none => false
    let hasSignalFromOtherRoom := hasPortCrossRoomSignal reg portId roomId
    if isMasterSource then "master"
    else if hasSignalFromOtherRoom then
      if isConnectedInRoom then "transmitter" else "receiver"
    else "unconnected"

/-- `shouldPortShowRing(portId, roomId)` from part_005: only receivers and
transmitters show rings, never master sources. -/
def shouldPortShowRing (reg : Registry) (portId roomId : String) : Bool :=
  let portType := getPortType reg portId roomId
  portType == "receiver" || portType == "transmitter"

/-- `getPortSignalSourceRoom(portId, roomId)` from part_005. -/
def getPortSignalSourceRoom (reg : Registry) (portId roomId : String) :
    Option String :=
  if portId = "" ∨ roomId = "" then none
  else match alGet reg portId with
  | none => none
  | some e => (alGet e.signals roomId).map (·.sourceRoom)

/-- `clearPortSignals(portId)` from part_005. -/
def clearPortSignals (reg : Registry) (portId : String) : Registry :=
  if portId = "" then reg
  else match alGet reg portId with
  | none => reg
  | some _ => alModify reg portId (fun e => { e with signals := [] })

/-- `clearRegistry()` from part_005. -/
def clearRegistry : Registry := []

/-! ### Geometry and constants (src/js/config/constants.js, src/js/models/Port.js)

Distances: the JS code computes `Math.sqrt(dx*dx+dy*dy)` and compares it to
non-negative thresholds; the embedding keeps squared distances and squares
the thresholds, an exact transformation since sqrt is monotone. -/

/-- `SCALE_FACTOR` from constants.js (the static version: 0.89). -/
def SCALE_FACTOR : ℚ := 89 / 100

/-- `scaled(value) = Math.round(value * SCALE_FACTOR)`; JS Math.round(x) is
floor(x + 1/2) for every x, computed here with the executable Rat.floor. -/
def scaled (value : ℚ) : ℚ := ((value * SCALE_FACTOR + 1/2).floor : ℤ)

/-- `portRadius = scaled(9)` from constants.js (equals 8). -/
def portRadius : ℚ := scaled 9

/-- A port as used by hit-testing: a stable id and a 2-D position. -/
structure Port where
  id : String
  x : ℚ
  y : ℚ
deriving DecidableEq, Repr

/-- Squared Euclidean distance: square of `dist(x1,y1,x2,y2)` from Port.js. -/
def distSq (x1 y1 x2 y2 : ℚ) : ℚ :=
  (x2 - x1) * (x2 - x1) + (y2 - y1) * (y2 - y1)

/-- `getPortAt(x, y, ports, radius)` from Port.js: the single closest port
whose distance to the pointer is strictly below `radius` (nearest-wins
scan keeping a running minimum).  The NaN/shape guards of the JS code are
vacuous for well-typed rational inputs.  The running state keeps the
closest port so far and the squared running minimum (initially radius²). -/
def getPortAt (x y : ℚ) (ports : List Port) (radius : ℚ) : Option Port :=
  (ports.foldl
    (fun (acc : Option Port × ℚ) port =>
      let d := distSq x y port.x port.y
      if d < acc.2 then (some port, d) else acc)
    (none, radius * radius)).1

/-- A connection as created by mousePressed in interactions.js:
`{ from: portId, to: portId, color }` (fields renamed fromId/toId because
`from` is reserved in Lean). -/
structure Conn where
  fromId : String
  toId : String
  color : Color
deriving DecidableEq, Repr

/-- The test `conn.from === port.id || conn.to === port.id` used throughout
interactions.js. -/
def connMatchesPort (portId : String) (c : Conn) : Bool :=
  c.fromId == portId || c.toId == portId

/-- `isPortConnected(port, connections)` from Port.js, for the `{from, to}`
connection shape produced by interactions.js (the `port1/port2` and `a/b`
branches of the JS code handle other connection shapes that this model
never builds). -/
def isPortConnected (port : Port) (connections : List Conn) : Bool :=
  connections.any (connMatchesPort port.id)

/-- `bezierPoint(a, b, c, d, t)` from interactions.js: cubic Bernstein
evaluation. -/
def bezierPoint (a b c d t : ℚ) : ℚ :=
  let t1 := 1 - t
  t1 * t1 * t1 * a + 3 * t1 * t1 * t * b + 3 * t1 * t * t * c + t * t * t * d

/-- `lerp` from interactions.js: `start * (1 - amt) + end * amt`. -/
def lerp (start stop amt : ℚ) : ℚ := start * (1 - amt) + stop * amt

/-- Square of `distToSegment(p, a, b)` from interactions.js (point to
segment distance, clamping the projection parameter into [0,1]). -/
def distToSegmentSq (p a b : ℚ × ℚ) : ℚ :=
  let A := p.1 - a.1
  let B := p.2 - a.2
  let C := b.1 - a.1
  let D := b.2 - a.2
  let dot := A * C + B * D
  let lenSq := C * C + D * D
  let param := if lenSq ≠ 0 then dot / lenSq else -1
  let xx := if param < 0 then a.1 else if param > 1 then b.1 else a.1 + param * C
  let yy := if param < 0 then a.2 else if param > 1 then b.2 else a.2 + param * D
  (p.1 - xx) * (p.1 - xx) + (p.2 - yy) * (p.2 - yy)

/-- The 51 sampled points of the cable curve of `isMouseNearBezierSegments`
(interactions.js): samples = 50, `for (t = 0; t <= 1; t += 1/samples)`
taken at the exact rationals t = i/50, control points at the 25%/75%
horizontal interpolation and sag `39 + |a.x - b.x| * 0.065` below the
lower endpoint. -/
def bezierSamplePoints (a b : ℚ × ℚ) (offsetY offsetX : ℚ) : List (ℚ × ℚ) :=
  let sag : ℚ := 39 + |a.1 - b.1| * (65 / 1000)
  (List.range 51).map (fun (i : Nat) =>
    let t : ℚ := (i : ℚ) / 50
    (bezierPoint a.1 (lerp a.1 b.1 (1/4) + offsetX) (lerp a.1 b.1 (3/4) + offsetX) b.1 t,
     bezierPoint a.2 (max a.2 b.2 + sag + offsetY) (max a.2 b.2 + sag + offsetY) b.2 t))

/-- Consecutive pairs of a list (the sampled segments of the curve). -/
def consecutivePairs {α : Type} : List α → List (α × α)
  | [] => []
  | [_] => []
  | x :: y :: rest => (x, y) :: consecutivePairs (y :: rest)

/-- `isMouseNearBezierSegments(a, b, offsetY, offsetX, threshold, ...)` from
interactions.js: true when some sampled segment of the cable curve is
within `threshold` of the mouse (squared-distance comparison; `threshold`
is the non-negative literal 16 at the deletion call site). -/
def isMouseNearBezierSegments (a b : ℚ × ℚ) (offsetY offsetX threshold mouseX mouseY : ℚ) :
    Bool :=
  let points := bezierSamplePoints a b offsetY offsetX
  (consecutivePairs points).any (fun pr =>
    distToSegmentSq (mouseX, mouseY) pr.1 pr.2 < threshold * threshold)

/-! ### Interaction controller (src/js/ui/interactions.js) -/

/-- The slice of the application state that mousePressed/keyPressed/
clearAllPatches read and write: the connection list, the transient active
cable (origin port id), its preserved color, and the palette state. -/
structure PBState where
  connections : List Conn
  activeCable : Option String
  activeCableColor : Option Color
  currentColorIndex : Nat
  cableColors : List Color
deriving DecidableEq, Repr

/-- Remove the first list element satisfying `p`
(`splice(indexOf(found), 1)` where `found = find(p)` in interactions.js). -/
def removeFirstSat (p : Conn → Bool) : List Conn → List Conn
  | [] => []
  | c :: rest => if p c then rest else c :: removeFirstSat p rest

/-- The connection-deletion scan of mousePressed (interactions.js lines
106-123): walk the connection list in insertion order; for the first
connection whose two endpoint ports both resolve and whose cable curve is
within 16 pixels of the pointer, remove it and stop. -/
def deleteFirstNearConnection (ports : List Port) (mouseX mouseY : ℚ) :
    List Conn → List Conn
  | [] => []
  | conn :: rest =>
    match ports.find? (fun p => p.id == conn.fromId),
          ports.find? (fun p => p.id == conn.toId) with
    | some a, some b =>
      if isMouseNearBezierSegments (a.x, a.y) (b.x, b.y) 0 0 16 mouseX mouseY
      then rest
      else conn :: deleteFirstNearConnection ports mouseX mouseY rest
    | some _, none => conn :: deleteFirstNearConnection ports mouseX mouseY rest
    | none, _ => conn :: deleteFirstNearConnection ports mouseX mouseY rest

/-- The curve hit-test for one connection, as performed inside the deletion
scan: both endpoint ports must resolve by id and the sampled curve must be
within the 16-pixel threshold. -/
def connHitTest (ports : List Port) (mouseX mouseY : ℚ) (conn : Conn) : Bool :=
  match ports.find? (fun p => p.id == conn.fromId),
        ports.find? (fun p => p.id == conn.toId) with
  | some a, some b => isMouseNearBezierSegments (a.x, a.y) (b.x, b.y) 0 0 16 mouseX mouseY
  | _, _ => false

/-- `mousePressed(p5, state)` from interactions.js.  The layer-dirty marking
side effects live in the render scheduler model; this function captures the
connection/drag state changes.  Branches, in source order:
hit a port & active cable: connect unless the hit port is already
connected; hit a port & idle: pick up its connection when one exists, else
start a new cable; miss & active cable: cancel; miss & idle: curve-
proximity deletion scan. -/
def mousePressed (ports : List Port) (mouseX mouseY : ℚ) (s : PBState) : PBState :=
  match getPortAt mouseX mouseY ports (portRadius * 3 / 2) with
  | some port =>
    match s.activeCable with
    | some origin =>
      let isPortConnectedHere := s.connections.any (connMatchesPort port.id)
      if isPortConnectedHere then s
      else
        let cableColor := s.activeCableColor.getD
          (s.cableColors.getD s.currentColorIndex [])
        { s with
          connections := s.connections ++ [⟨origin, port.id, cableColor⟩],
          currentColorIndex :=
            if s.activeCableColor.isNone
            then (s.currentColorIndex + 1) % s.cableColors.length
            else s.currentColorIndex,
          activeCable := none,
          activeCableColor := none }
    | none =>
      match s.connections.find? (connMatchesPort port.id) with
      | some existingConnection =>
        { s with
          connections := removeFirstSat (connMatchesPort port.id) s.connections,
          activeCable := some
            (if existingConnection.fromId == port.id
             then existingConnection.toId else existingConnection.fromId),
          activeCableColor := some existingConnection.color }
      | none => { s with activeCable := some port.id }
  | none =>
    match s.activeCable with
    | some _ => { s with activeCable := none, activeCableColor := none }
    | none =>
      { s with connections := deleteFirstNearConnection ports mouseX mouseY s.connections }

/-- `clearAllPatches(state)` from interactions.js. -/
def clearAllPatches (s : PBState) : PBState :=
  if s.connections.length > 0 then { s with connections := [] } else s

/-- `keyPressed(p5, state)` from interactions.js: Escape (keyCode 27) with an
active cable discards the cable (the controlOffset resets touch only
render-side smoothing state, not modelled here). -/
def keyPressed (keyCode : Nat) (s : PBState) : PBState :=
  if keyCode == 27 then
    if s.activeCable.isSome then
      { s with activeCable := none, activeCableColor := none }
    else s
  else s

/-- One Interaction Controller event: a pointer press at some position, a
key press, or the clear-all button. -/
inductive Step (ports : List Port) : PBState → PBState → Prop
  | press (mouseX mouseY : ℚ) (s : PBState) : Step ports s (mousePressed ports mouseX mouseY s)
  | key (keyCode : Nat) (s : PBState) : Step ports s (keyPressed keyCode s)
  | clearAll (s : PBState) : Step ports s (clearAllPatches s)

/-- Reflexive-transitive closure of `Step`. -/
inductive Reachable (ports : List Port) : PBState → PBState → Prop
  | refl (s : PBState) : Reachable ports s s
  | tail {s t u : PBState} : Reachable ports s t → Step ports t u → Reachable ports s u

/-- The initial state: no connections, no active cable, palette at index 0. -/
def initState (cableColors : List Color) : PBState :=
  { connections := [], activeCable := none, activeCableColor := none,
    currentColorIndex := 0, cableColors := cableColors }

/-- A port id occurring in either endpoint of a connection. -/
def portInConn (portId : String) (c : Conn) : Prop :=
  c.fromId = portId ∨ c.toId = portId

/-- Two connections sharing no endpoint id. -/
def ConnSeparate (c1 c2 : Conn) : Prop :=
  ∀ portId, ¬ (portInConn portId c1 ∧ portInConn portId c2)

/-- No port id occurs in more than one element of the connection list. -/
def NoDoubleConnection (conns : List Conn) : Prop :=
  conns.Pairwise ConnSeparate

/-- The active cable's origin port, when one exists, participates in no
connection (auxiliary invariant of the interaction state machine). -/
def CableFree (s : PBState) : Prop :=
  ∀ pid, s.activeCable = some pid → ∀ c ∈ s.connections, ¬ portInConn pid c

/-- Full inductive invariant of the Interaction Controller. -/
def InvFull (s : PBState) : Prop :=
  NoDoubleConnection s.connections ∧ CableFree s

/-! ### Render scheduler (src/js/ui/renderer.js draw, src/js/ui/layerManager.js)

The five layers and their dirty flags.  The flag bookkeeping of a draw tick
is modelled exactly; the pixel-producing calls (drawBackground, drawCables,
...) are represented by recording which layers get redrawn.  Momentum/
cursor bookkeeping of the tick (controlOffset, prevCursor updates) never
touches the flags and is omitted. -/

/-- The five canvas layers of layerIds/LAYERS in constants.js. -/
inductive Layer
  | background
  | groupBox
  | cable
  | port
  | text
deriving DecidableEq, Repr

/-- Per-layer dirty flags (`dirtyLayers` in layerManager.js, assuming the
layers have been set up, so the `layersInitialized` guards pass). -/
structure DirtyFlags where
  background : Bool
  groupBox : Bool
  cable : Bool
  port : Bool
  text : Bool
deriving DecidableEq, Repr

/-- `markLayerAsDirty(layerId)` from layerManager.js. -/
def markLayerAsDirty (f : DirtyFlags) : Layer → DirtyFlags
  | .background => { f with background := true }
  | .groupBox => { f with groupBox := true }
  | .cable => { f with cable := true }
  | .port => { f with port := true }
  | .text => { f with text := true }

/-- `markLayerAsClean(layerId)` from layerManager.js. -/
def markLayerAsClean (f : DirtyFlags) : Layer → DirtyFlags
  | .background => { f with background := false }
  | .groupBox => { f with groupBox := false }
  | .cable => { f with cable := false }
  | .port => { f with port := false }
  | .text => { f with text := false }

/-- `isLayerDirty(layerId)` from layerManager.js. -/
def isLayerDirty (f : DirtyFlags) : Layer → Bool
  | .background => f.background
  | .groupBox => f.groupBox
  | .cable => f.cable
  | .port => f.port
  | .text => f.text

/-- All flags clear. -/
def allClean : DirtyFlags :=
  { background := false, groupBox := false, cable := false, port := false, text := false }

/-- The state read by a draw tick (renderer.js `draw`): cursor positions for
the movement test, the port/connection model for the closest-port scan, the
active cable, the closest available port from the previous tick, and
whether any room is visible. -/
structure TickState where
  ports : List Port
  connections : List Conn
  activeCable : Option String
  mouseX : ℚ
  mouseY : ℚ
  cursorX : ℚ
  cursorY : ℚ
  prevCursorX : ℚ
  prevCursorY : ℚ
  closestAvailablePort : Option Port
  hasVisibleRooms : Bool

/-- `findClosestAvailablePort(state)` from renderer.js: among ports other
than the active-cable port that are unconnected, the closest one to the
mouse; returned only when its distance is within `portRadius * 1.5`
(running minimum starts at Infinity, modelled by an `Option` accumulator;
squared distances as everywhere). -/
def findClosestAvailablePort (st : TickState) : Option Port :=
  let highlightThreshold := portRadius * 3 / 2
  let best := st.ports.foldl
    (fun (acc : Option (Port × ℚ)) p =>
      let skip := match st.activeCable with
        | some id => p.id == id
        | none => false
      if skip then acc
      else if isPortConnected p st.connections then acc
      else
        let d := distSq p.x p.y st.mouseX st.mouseY
        match acc with
        | none => some (p, d)
        | some (q, dq) => if d < dq then some (p, d) else some (q, dq))
    none
  match best with
  | some (p, d) => if d ≤ highlightThreshold * highlightThreshold then some p else none
  | none => none

/-- The dirty-marking phase of the draw tick (renderer.js lines 129-167):
the scheduler itself marks the cable layer dirty when the cursor moved more
than 0.1 in either axis or a cable is active, and the port layer dirty when
the closest available port changed since the previous tick. -/
def drawMarkPhase (st : TickState) (f : DirtyFlags) : DirtyFlags :=
  let dx := st.cursorX - st.prevCursorX
  let dy := st.cursorY - st.prevCursorY
  let significantMovement : Bool := decide (|dx| > 1/10) || decide (|dy| > 1/10)
  let closest := findClosestAvailablePort st
  let closestPortChanged : Bool := st.closestAvailablePort != closest
  let f := if significantMovement || st.activeCable.isSome
           then markLayerAsDirty f .cable else f
  if closestPortChanged then markLayerAsDirty f .port else f

/-- One redraw-if-dirty block of the draw tick: when the layer's flag is
set, clear the layer (clearLayer re-marks it dirty), repaint it, mark it
clean, and record the repaint; otherwise leave its pixels and flag alone. -/
def redrawLayerIfDirty (acc : DirtyFlags × List Layer) (l : Layer) :
    DirtyFlags × List Layer :=
  if isLayerDirty acc.1 l then
    (markLayerAsClean (markLayerAsDirty acc.1 l) l, acc.2 ++ [l])
  else acc

/-- The redraw phase of the draw tick: the five layers are handled in the
fixed order background, group box, cable, port, text (renderer.js lines
169-199; the no-visible-rooms branch at lines 101-126 performs the same
flag bookkeeping while painting nothing).  Returns the final flags and the
list of layers that were repainted this tick. -/
def drawRedrawPhase (f : DirtyFlags) : DirtyFlags × List Layer :=
  [Layer.background, Layer.groupBox, Layer.cable, Layer.port, Layer.text].foldl
    redrawLayerIfDirty (f, [])

/-- `draw(p5, state)` from renderer.js, restricted to its dirty-flag
behaviour: when no room is visible, redraw-if-dirty each layer; otherwise
run the scheduler's own marking phase and then redraw-if-dirty each layer.
Returns the flags at end of tick and the layers repainted during it. -/
def draw (st : TickState) (f : DirtyFlags) : DirtyFlags × List Layer :=
  if st.hasVisibleRooms then drawRedrawPhase (drawMarkPhase st f)
  else drawRedrawPhase f

/-- The registry of the C3 scenario: identifier "p" registered in rooms
"R1" and "R2", a signal asserted from "R1" and then removed by "R1",
wiping every signal entry for "p" ("R1" was the master). -/
def clearedRegistryC3 : Registry :=
  removePortSignal
    (setPortSignal (registerPort (registerPort [] "p" "R1") "p" "R2")
      "p" "R1" [0, 0, 255])
    "p" "R1"

/-- The master room recorded for an identifier, if any. -/
def masterRoomOf (reg : Registry) (portId : String) : Option String :=
  ((alGet reg portId).bind (fun e => e.masterSource)).map (fun ms => ms.roomId)

/-- The registry of the C7 scenario: a fresh registry where "p0001" is
registered in exactly rooms "Alpha" and "Beta" and then receives a signal
from a connection made in "Alpha". -/
def alphaBetaRegistry (c : Color) : Registry :=
  setPortSignal (registerPort (registerPort [] "p0001" "Alpha") "p0001" "Beta")
    "p0001" "Alpha" c

/-- The registry of the C2 scenario: identifier p registered in exactly
rooms r1, r2, r3, no signal asserted anywhere (otherwise signal-free:
no masterSource, empty signals, no connection flags). -/
def threeRoomRegistry (p r1 r2 r3 : String) : Registry :=
  [(p, { rooms := [r1, r2, r3], masterSource := none, signals := [],
         connections := none })]

/-! ## Association-list lemmas -/

/-- Reading back the key just written. -/
theorem alGet_alSet_self {β : Type} (l : List (String × β)) (k : String) (v : β) :
    alGet (alSet l k v) k = some v := by
  induction l with
  | nil => simp [alSet, alGet]
  | cons hd tl ih =>
    obtain ⟨k', v'⟩ := hd
    by_cases h : k' = k
    · simp [alSet, alGet, h]
    · simp [alSet, alGet, h, ih]

/-- Reading the key whose value was just mutated in place. -/
theorem alGet_alModify_self {β : Type} (l : List (String × β)) (k : String)
    (f : β → β) : alGet (alModify l k f) k = (alGet l k).map f := by
  induction l with
  | nil => simp [alModify, alGet]
  | cons hd tl ih =>
    obtain ⟨k', v'⟩ := hd
    by_cases h : k' = k
    · simp [alModify, alGet, h]
    · simp [alModify, alGet, h, ih]

/-- In-place mutation of one key leaves every other key's value alone. -/
theorem alGet_alModify_ne {β : Type} (l : List (String × β)) (k q : String)
    (f : β → β) (h : q ≠ k) : alGet (alModify l k f) q = alGet l q := by
  induction l with
  | nil => simp [alModify]
  | cons hd tl ih =>
    obtain ⟨k', v'⟩ := hd
    by_cases hk : k' = k
    · subst hk
      simp [alModify, alGet, Ne.symm h]
    · by_cases hq : k' = q
      · simp [alModify, alGet, hk, hq, h]
      · simp [alModify, alGet, hk, hq, ih]

/-! ## Claim C8 -/

/-- Claim C8: every registry operation invoked with an identifier that is
not present in the registry returns without failing and leaves the
registry unchanged; in particular removeSignal (removePortSignal),
unregisterPort, hasForeignSignal (hasPortCrossRoomSignal), getPortType and
the signal-color/source queries.  (setPortSignal is excluded by the
claim's own enumeration: it deliberately auto-registers unknown ids.) -/
theorem unknown_identifier_noop (reg : Registry) (id room : String)
    (h : alGet reg id = none) :
    removePortSignal reg id room = reg
    ∧ unregisterPort reg id room = reg
    ∧ hasPortCrossRoomSignal reg id room = false
    ∧ getPortType reg id room = "unconnected"
    ∧ getPortSignalColor reg id room = none
    ∧ getPortCrossRoomSignalColor reg id room = none
    ∧ getPortSignalSourceRoom reg id room = none
    ∧ shouldPortShowRing reg id room = false := by
  refine ⟨?_, ?_, ?_, ?_, ?_, ?_, ?_, ?_⟩ <;>
    simp [removePortSignal, unregisterPort, hasPortCrossRoomSignal, getPortType,
      getPortSignalColor, getPortCrossRoomSignalColor, getPortSignalSourceRoom,
      shouldPortShowRing, h]

/-- Witness for C8 at a concrete input: the empty registry and identifier
"x". -/
theorem unknown_identifier_noop_witness :
    removePortSignal [] "x" "R" = ([] : Registry)
    ∧ getPortType [] "x" "R" = "unconnected" := by
  have h := unknown_identifier_noop [] "x" "R" (by decide)
  exact ⟨h.1, h.2.2.2.1⟩

/-! ## Claim C10 -/

/-- Claim C10: for an identifier present in the registry, removePortSignal
modifies only that identifier's signals map; its room list, masterSource
record and per-room connected flags are unchanged, and every other
identifier's entry is untouched (so a room once recorded as master or as
connected remains recorded as such after the identifier's signals are all
removed). -/
theorem removeSignal_preserves_non_signal_fields (reg : Registry)
    (p room : String) (entry : PortEntry) (hp : alGet reg p = some entry) :
    (∃ entry', alGet (removePortSignal reg p room) p = some entry'
       ∧ entry'.rooms = entry.rooms
       ∧ entry'.masterSource = entry.masterSource
       ∧ entry'.connections = entry.connections)
    ∧ (∀ q, q ≠ p → alGet (removePortSignal reg p room) q = alGet reg q) := by
  by_cases hg : p = "" ∨ room = ""
  · constructor
    · exact ⟨entry, by simp [removePortSignal, hg, hp], rfl, rfl, rfl⟩
    · intro q _
      simp [removePortSignal, hg]
  · constructor
    · simp only [removePortSignal, if_neg hg, hp]
      rw [alGet_alModify_self, alGet_alModify_self, hp]
      refine ⟨_, rfl, ?_, ?_, ?_⟩ <;> dsimp only <;> split <;> rfl
    · intro q hq
      simp only [removePortSignal, if_neg hg, hp]
      rw [alGet_alModify_ne _ _ _ _ hq, alGet_alModify_ne _ _ _ _ hq]

/-- Witness for C10 at a concrete input: an entry for "p" whose master room
"R1" survives removal of its last signal. -/
theorem removeSignal_preserves_non_signal_fields_witness :
    ∃ entry',
      alGet (removePortSignal
        [("p", ⟨["R1"], some ⟨"R1", true⟩, [("R1", ⟨[1,2,3], "R1"⟩)],
          some [("R1", true)]⟩)] "p" "R1") "p" = some entry'
      ∧ entry'.masterSource = some ⟨"R1", true⟩ := by
  obtain ⟨⟨entry', h1, _, h3, _⟩, _⟩ :=
    removeSignal_preserves_non_signal_fields
      [("p", ⟨["R1"], some ⟨"R1", true⟩, [("R1", ⟨[1,2,3], "R1"⟩)],
        some [("R1", true)]⟩)] "p" "R1" _ rfl
  exact ⟨entry', h1, by rw [h3]⟩

/-! ## Claim C3 -/

/-- Counterexample to claim C3: after the master's removeSignal wiped every
signal entry for "p", the next room to call setPortSignal ("R2") does NOT
become the identifier's master source, and the asserted signal's
sourceRoom is "R1", not the calling room: removePortSignal never clears
the masterSource record, so there is no re-election after a full clear. -/
theorem first_writer_after_clear_false :
    ¬ (masterRoomOf (setPortSignal clearedRegistryC3 "p" "R2" [0, 0, 255]) "p"
          = some "R2"
      ∧ getPortSignalSourceRoom (setPortSignal clearedRegistryC3 "p" "R2" [0, 0, 255])
          "p" "R2" = some "R2") := by
  decide

/-- Claim C3 amended: removePortSignal never clears the masterSource
record, so after the master's removeSignal wipes every signal entry the
next room to call setPortSignal does NOT become the identifier's master:
the retained master survives, and the newly asserted signal's sourceRoom
is the retained master's room.  The first caller of setPortSignal becomes
master (with the signal's sourceRoom equal to the calling room) only when
the identifier has no registry entry at all (never registered, last room
unregistered, or registry cleared). -/
theorem master_retention_after_clear (reg : Registry) (p room : String)
    (c : Color) (hp : p ≠ "") (hr : room ≠ "") :
    (∀ entry ms, alGet reg p = some entry → entry.masterSource = some ms →
       ∃ entry', alGet (setPortSignal reg p room c) p = some entry'
         ∧ entry'.masterSource = some ms
         ∧ alGet entry'.signals room = some ⟨c, ms.roomId⟩)
    ∧ (alGet reg p = none →
       ∃ entry', alGet (setPortSignal reg p room c) p = some entry'
         ∧ entry'.masterSource = some ⟨room, true⟩
         ∧ alGet entry'.signals room = some ⟨c, room⟩) := by
  have hg : ¬ (p = "" ∨ room = "") := by
    rintro (h | h)
    · exact hp h
    · exact hr h
  constructor
  · intro entry ms hent hms
    have hstep : alGet (setPortSignal reg p room c) p
        = some { rooms := entry.rooms, masterSource := entry.masterSource,
                 signals := alSet entry.signals room ⟨c, ms.roomId⟩,
                 connections := some (alSet (entry.connections.getD []) room true) } := by
      simp [setPortSignal, hg, hent, hms, setPortConnectionStatus,
        alGet_alModify_self]
    refine ⟨_, hstep, ?_, ?_⟩
    · exact hms
    · exact alGet_alSet_self _ _ _
  · intro hnone
    have hreg : alGet (registerPort reg p room) p
        = some ⟨[room], none, [], none⟩ := by
      simp [registerPort, hg, hnone, alGet_alModify_self, alGet_alSet_self]
    have hstep : alGet (setPortSignal reg p room c) p
        = some ⟨[room], some ⟨room, true⟩, [(room, ⟨c, room⟩)], some [(room, true)]⟩ := by
      simp [setPortSignal, hg, hnone, hreg, setMasterSource,
        propagateSignalToOtherRooms, alGet_alModify_self, alSet]
    refine ⟨_, hstep, rfl, ?_⟩
    simp [alGet]

/-- Witness for the amended C3 at concrete inputs: the retained-master
branch on the cleared registry of the counterexample, and the fresh-master
branch on a never-registered identifier. -/
theorem master_retention_after_clear_witness :
    (∃ entry', alGet (setPortSignal clearedRegistryC3 "p" "R2" [7, 7, 7]) "p"
        = some entry'
      ∧ entry'.masterSource = some ⟨"R1", true⟩
      ∧ alGet entry'.signals "R2" = some ⟨[7, 7, 7], "R1"⟩)
    ∧ (∃ entry', alGet (setPortSignal [] "q" "R9" [1, 1, 1]) "q" = some entry'
      ∧ entry'.masterSource = some ⟨"R9", true⟩
      ∧ alGet entry'.signals "R9" = some ⟨[1, 1, 1], "R9"⟩) := by
  constructor
  · exact (master_retention_after_clear clearedRegistryC3 "p" "R2" [7, 7, 7]
      (by decide) (by decide)).1
      ⟨["R1", "R2"], some ⟨"R1", true⟩, [], some [("R1", true)]⟩
      ⟨"R1", true⟩ (by decide) rfl
  · exact (master_retention_after_clear [] "q" "R9" [1, 1, 1]
      (by decide) (by decide)).2 rfl

/-! ## Claim C7 -/

/-- Claim C7: after setPortSignal from "Alpha" on the fresh Alpha/Beta
registry, "Alpha" is recorded as the master source of "p0001",
getPortType("p0001","Beta") is "receiver", the indicator-ring predicate is
true exactly for the port types "receiver" and "transmitter", and in
particular it is false for the master's own room "Alpha". -/
theorem master_receiver_ring_types (c : Color) :
    masterRoomOf (alphaBetaRegistry c) "p0001" = some "Alpha"
    ∧ getPortType (alphaBetaRegistry c) "p0001" "Beta" = "receiver"
    ∧ (∀ reg' pid rid, shouldPortShowRing reg' pid rid =
        ((getPortType reg' pid rid == "receiver")
          || (getPortType reg' pid rid == "transmitter")))
    ∧ shouldPortShowRing (alphaBetaRegistry c) "p0001" "Alpha" = false := by
  refine ⟨rfl, rfl, fun reg' pid rid => rfl, rfl⟩

/-! ## Claim C2 -/

/-- Claim C2: for identifier p registered in exactly rooms r1, r2 and r3 of
an otherwise signal-free registry, after setPortSignal(p, r1, c):
hasPortCrossRoomSignal(p, r2) is true and hasPortCrossRoomSignal(p, r1) is
false; and after a subsequent removePortSignal(p, r1), both
hasPortCrossRoomSignal(p, r2) and hasPortCrossRoomSignal(p, r3) are false:
no foreign signal survives removal of its source room. -/
theorem signal_propagation_and_removal (p r1 r2 r3 : String) (c : Color)
    (hp : p ≠ "") (h1 : r1 ≠ "") (h2 : r2 ≠ "")
    (h12 : r1 ≠ r2) (h13 : r1 ≠ r3) (h23 : r2 ≠ r3) :
    hasPortCrossRoomSignal
        (setPortSignal (threeRoomRegistry p r1 r2 r3) p r1 c) p r2 = true
    ∧ hasPortCrossRoomSignal
        (setPortSignal (threeRoomRegistry p r1 r2 r3) p r1 c) p r1 = false
    ∧ hasPortCrossRoomSignal
        (removePortSignal (setPortSignal (threeRoomRegistry p r1 r2 r3) p r1 c) p r1)
        p r2 = false
    ∧ hasPortCrossRoomSignal
        (removePortSignal (setPortSignal (threeRoomRegistry p r1 r2 r3) p r1 c) p r1)
        p r3 = false := by
  have hreg1 : setPortSignal (threeRoomRegistry p r1 r2 r3) p r1 c
      = [(p, { rooms := [r1, r2, r3], masterSource := some ⟨r1, true⟩,
               signals := [(r1, ⟨c, r1⟩), (r2, ⟨c, r1⟩), (r3, ⟨c, r1⟩)],
               connections := some [(r1, true)] })] := by
    simp [threeRoomRegistry, setPortSignal, setMasterSource,
      propagateSignalToOtherRooms, registerPort, setPortConnectionStatus,
      alGet, alSet, alModify, hp, h1, h12, h13, h23,
      Ne.symm h12, Ne.symm h13, Ne.symm h23]
  have hreg2 : removePortSignal
        (setPortSignal (threeRoomRegistry p r1 r2 r3) p r1 c) p r1
      = [(p, { rooms := [r1, r2, r3], masterSource := some ⟨r1, true⟩,
               signals := [], connections := some [(r1, true)] })] := by
    rw [hreg1]
    simp [removePortSignal, alGet, alDel, alModify, hp, h1,
      Ne.symm h12, Ne.symm h13]
  refine ⟨?_, ?_, ?_, ?_⟩
  · rw [hreg1]
    simp [hasPortCrossRoomSignal, alGet, hp, h2, bne_iff_ne, h12]
  · rw [hreg1]
    simp [hasPortCrossRoomSignal, alGet]
  · rw [hreg2]
    simp [hasPortCrossRoomSignal, alGet]
  · rw [hreg2]
    simp [hasPortCrossRoomSignal, alGet]

/-- Witness for C2 at concrete inputs p = "p", rooms "R1", "R2", "R3". -/
theorem signal_propagation_and_removal_witness :
    hasPortCrossRoomSignal
        (setPortSignal (threeRoomRegistry "p" "R1" "R2" "R3") "p" "R1" [0, 0, 255])
        "p" "R2" = true
    ∧ hasPortCrossRoomSignal
        (removePortSignal
          (setPortSignal (threeRoomRegistry "p" "R1" "R2" "R3") "p" "R1" [0, 0, 255])
          "p" "R1") "p" "R3" = false := by
  have h := signal_propagation_and_removal "p" "R1" "R2" "R3" [0, 0, 255]
    (by decide) (by decide) (by decide) (by decide) (by decide) (by decide)
  exact ⟨h.1, h.2.2.2⟩

/-! ## Interaction controller: list lemmas -/

/-- Bool/Prop bridge for the endpoint test of interactions.js. -/
theorem connMatchesPort_iff (pid : String) (c : Conn) :
    connMatchesPort pid c = true ↔ portInConn pid c := by
  simp [connMatchesPort, portInConn]

/-- Negative Bool/Prop bridge for the endpoint test. -/
theorem connMatchesPort_false_iff (pid : String) (c : Conn) :
    connMatchesPort pid c = false ↔ ¬ portInConn pid c := by
  rw [← connMatchesPort_iff]
  cases connMatchesPort pid c <;> simp

/-- Removing the first match yields a sublist. -/
theorem removeFirstSat_sublist (p : Conn → Bool) (l : List Conn) :
    List.Sublist (removeFirstSat p l) l := by
  induction l with
  | nil => simp [removeFirstSat]
  | cons hd tl ih =>
    simp only [removeFirstSat]
    split
    · exact List.sublist_cons_self _ _
    · exact List.Sublist.cons₂ _ ih

/-- Removing the first match from a list that splits around it. -/
theorem removeFirstSat_append_eq (p : Conn → Bool) (l1 l2 : List Conn) (c : Conn)
    (h1 : ∀ x ∈ l1, p x = false) (hc : p c = true) :
    removeFirstSat p (l1 ++ c :: l2) = l1 ++ l2 := by
  induction l1 with
  | nil => simp [removeFirstSat, hc]
  | cons hd tl ih =>
    have hhd := h1 hd (List.mem_cons_self _ _)
    simp [removeFirstSat, hhd, ih (fun x hx => h1 x (List.mem_cons_of_mem _ hx))]

/-- find? returns the element at the split point when nothing earlier
matches. -/
theorem find?_append_first (p : Conn → Bool) (l1 l2 : List Conn) (c : Conn)
    (h1 : ∀ x ∈ l1, p x = false) (hc : p c = true) :
    (l1 ++ c :: l2).find? p = some c := by
  induction l1 with
  | nil => simp [List.find?_cons_of_pos _ hc]
  | cons hd tl ih =>
    have hhd := h1 hd (List.mem_cons_self _ _)
    rw [List.cons_append, List.find?_cons_of_neg _ (by simp [hhd])]
    exact ih (fun x hx => h1 x (List.mem_cons_of_mem _ hx))

/-- A successful find? splits the list at the first match. -/
theorem find?_eq_some_split (p : Conn → Bool) (l : List Conn) (c : Conn)
    (h : l.find? p = some c) :
    ∃ l1 l2, l = l1 ++ c :: l2 ∧ (∀ x ∈ l1, p x = false) ∧ p c = true := by
  induction l with
  | nil => simp at h
  | cons hd tl ih =>
    by_cases hp : p hd = true
    · rw [List.find?_cons_of_pos _ hp] at h
      have : hd = c := by injection h
      subst this
      exact ⟨[], tl, rfl, by simp, hp⟩
    · have hp' : p hd = false := by
        cases hpp : p hd
        · rfl
        · exact absurd hpp hp
      rw [List.find?_cons_of_neg _ (by simp [hp'])] at h
      obtain ⟨l1, l2, heq, hall, hc⟩ := ih h
      refine ⟨hd :: l1, l2, by rw [heq, List.cons_append], ?_, hc⟩
      intro x hx
      rcases List.mem_cons.mp hx with hx | hx
      · rw [hx]; exact hp'
      · exact hall x hx

/-- Unfolding equation for the deletion scan: one step removes the head if
its curve test fires, else keeps it and recurses. -/
theorem deleteFirstNearConnection_cons (ports : List Port) (mx my : ℚ)
    (conn : Conn) (rest : List Conn) :
    deleteFirstNearConnection ports mx my (conn :: rest)
      = if connHitTest ports mx my conn then rest
        else conn :: deleteFirstNearConnection ports mx my rest := by
  rcases hf : ports.find? (fun p => p.id == conn.fromId) with _ | a <;>
  rcases ht : ports.find? (fun p => p.id == conn.toId) with _ | b <;>
    simp [deleteFirstNearConnection, connHitTest, hf, ht]

/-- The deletion scan yields a sublist of the connection list. -/
theorem deleteFirstNearConnection_sublist (ports : List Port) (mx my : ℚ)
    (l : List Conn) : List.Sublist (deleteFirstNearConnection ports mx my l) l := by
  induction l with
  | nil => simp [deleteFirstNearConnection]
  | cons hd tl ih =>
    rw [deleteFirstNearConnection_cons]
    split
    · exact List.sublist_cons_self _ _
    · exact List.Sublist.cons₂ _ ih

/-- The deletion scan removes exactly the first connection whose curve test
fires, leaving every other connection in place. -/
theorem deleteFirstNearConnection_append_eq (ports : List Port) (mx my : ℚ)
    (l1 l2 : List Conn) (c : Conn)
    (h1 : ∀ x ∈ l1, connHitTest ports mx my x = false)
    (hc : connHitTest ports mx my c = true) :
    deleteFirstNearConnection ports mx my (l1 ++ c :: l2) = l1 ++ l2 := by
  induction l1 with
  | nil => simp [deleteFirstNearConnection_cons, hc]
  | cons hd tl ih =>
    have hhd := h1 hd (List.mem_cons_self _ _)
    rw [List.cons_append, deleteFirstNearConnection_cons]
    simp [hhd, ih (fun x hx => h1 x (List.mem_cons_of_mem _ hx))]

/-- The deletion scan is the identity when no connection's curve test
fires. -/
theorem deleteFirstNearConnection_all_false (ports : List Port) (mx my : ℚ)
    (l : List Conn) (h : ∀ x ∈ l, connHitTest ports mx my x = false) :
    deleteFirstNearConnection ports mx my l = l := by
  induction l with
  | nil => rfl
  | cons hd tl ih =>
    rw [deleteFirstNearConnection_cons]
    simp [h hd (List.mem_cons_self _ _),
      ih (fun x hx => h x (List.mem_cons_of_mem _ hx))]

/-! ## Interaction controller: branch equations for mousePressed -/

/-- Branch: hit a port while dragging, hit port already connected: silent
no-op (interactions.js lines 33-39). -/
theorem mousePressed_drag_connected (ports : List Port) (mx my : ℚ) (s : PBState)
    (port : Port) (origin : String)
    (hhit : getPortAt mx my ports (portRadius * 3 / 2) = some port)
    (hcab : s.activeCable = some origin)
    (hconn : s.connections.any (connMatchesPort port.id) = true) :
    mousePressed ports mx my s = s := by
  simp [mousePressed, hhit, hcab, hconn]

/-- Branch: hit an unconnected port while dragging: append the connection
from the drag origin to the hit port, with the preserved pick-up color when
one exists (else the current palette color, advancing the palette), and
return to idle (interactions.js lines 39-63). -/
theorem mousePressed_drag_connect (ports : List Port) (mx my : ℚ) (s : PBState)
    (port : Port) (origin : String)
    (hhit : getPortAt mx my ports (portRadius * 3 / 2) = some port)
    (hcab : s.activeCable = some origin)
    (hconn : s.connections.any (connMatchesPort port.id) = false) :
    mousePressed ports mx my s =
      { s with
        connections := s.connections ++
          [⟨origin, port.id,
            s.activeCableColor.getD (s.cableColors.getD s.currentColorIndex [])⟩],
        currentColorIndex :=
          if s.activeCableColor.isNone
          then (s.currentColorIndex + 1) % s.cableColors.length
          else s.currentColorIndex,
        activeCable := none,
        activeCableColor := none } := by
  simp [mousePressed, hhit, hcab, hconn]

/-- Branch: hit a connected port while idle: pick up the cable — remove the
first connection containing the hit port, keep its color, and re-enter
dragging from the other endpoint (interactions.js lines 64-90). -/
theorem mousePressed_idle_pickup (ports : List Port) (mx my : ℚ) (s : PBState)
    (port : Port) (ex : Conn)
    (hhit : getPortAt mx my ports (portRadius * 3 / 2) = some port)
    (hcab : s.activeCable = none)
    (hfind : s.connections.find? (connMatchesPort port.id) = some ex) :
    mousePressed ports mx my s =
      { s with
        connections := removeFirstSat (connMatchesPort port.id) s.connections,
        activeCable := some (if ex.fromId == port.id then ex.toId else ex.fromId),
        activeCableColor := some ex.color } := by
  simp [mousePressed, hhit, hcab, hfind]

/-- Branch: hit an unconnected port while idle: start a new cable there
(interactions.js lines 91-97). -/
theorem mousePressed_idle_newcable (ports : List Port) (mx my : ℚ) (s : PBState)
    (port : Port)
    (hhit : getPortAt mx my ports (portRadius * 3 / 2) = some port)
    (hcab : s.activeCable = none)
    (hfind : s.connections.find? (connMatchesPort port.id) = none) :
    mousePressed ports mx my s = { s with activeCable := some port.id } := by
  simp [mousePressed, hhit, hcab, hfind]

/-- Branch: miss every port while dragging: cancel the active cable
(interactions.js lines 99-105). -/
theorem mousePressed_drag_cancel (ports : List Port) (mx my : ℚ) (s : PBState)
    (origin : String)
    (hhit : getPortAt mx my ports (portRadius * 3 / 2) = none)
    (hcab : s.activeCable = some origin) :
    mousePressed ports mx my s =
      { s with activeCable := none, activeCableColor := none } := by
  simp [mousePressed, hhit, hcab]

/-- Branch: miss every port while idle: run the curve-proximity deletion
scan (interactions.js lines 106-123). -/
theorem mousePressed_idle_miss (ports : List Port) (mx my : ℚ) (s : PBState)
    (hhit : getPortAt mx my ports (portRadius * 3 / 2) = none)
    (hcab : s.activeCable = none) :
    mousePressed ports mx my s =
      { s with connections := deleteFirstNearConnection ports mx my s.connections } := by
  simp [mousePressed, hhit, hcab]

/-! ## Claim C1: the no-double-connection invariant -/

/-- ConnSeparate is symmetric. -/
theorem ConnSeparate.symm {c1 c2 : Conn} (h : ConnSeparate c1 c2) :
    ConnSeparate c2 c1 :=
  fun pid hc => h pid ⟨hc.2, hc.1⟩

/-- A sublist of a no-double-connection list is no-double-connection. -/
theorem noDouble_sublist {l' l : List Conn} (hs : List.Sublist l' l)
    (h : NoDoubleConnection l) : NoDoubleConnection l' :=
  List.Pairwise.sublist hs h

/-- In a no-double-connection list split around c, c is separate from every
other element. -/
theorem noDouble_middle_separate (l1 l2 : List Conn) (c : Conn)
    (h : NoDoubleConnection (l1 ++ c :: l2)) :
    ∀ x ∈ l1 ++ l2, ConnSeparate c x := by
  rw [NoDoubleConnection, List.pairwise_append] at h
  obtain ⟨_, h2, h12⟩ := h
  intro x hx
  rcases List.mem_append.mp hx with hx | hx
  · exact (h12 x hx c (List.mem_cons_self _ _)).symm
  · exact (List.pairwise_cons.mp h2).1 x hx

/-- Appending a fresh connection separate from everything preserves the
invariant. -/
theorem noDouble_append_new (conns : List Conn) (nc : Conn)
    (h : NoDoubleConnection conns)
    (hnew : ∀ x ∈ conns, ConnSeparate x nc) :
    NoDoubleConnection (conns ++ [nc]) := by
  rw [NoDoubleConnection, List.pairwise_append]
  refine ⟨h, List.pairwise_singleton _ _, ?_⟩
  intro a ha b hb
  have hb' := List.mem_singleton.mp hb
  subst hb'
  exact hnew a ha

/-- mousePressed preserves the full invariant. -/
theorem mousePressed_invFull (ports : List Port) (mx my : ℚ) (s : PBState)
    (h : InvFull s) : InvFull (mousePressed ports mx my s) := by
  obtain ⟨hnd, hcf⟩ := h
  rcases hhit : getPortAt mx my ports (portRadius * 3 / 2) with _ | port
  · rcases hcab : s.activeCable with _ | origin
    · rw [mousePressed_idle_miss ports mx my s hhit hcab]
      refine ⟨noDouble_sublist (deleteFirstNearConnection_sublist _ _ _ _) hnd, ?_⟩
      intro pid hpid
      simp only at hpid
      rw [hcab] at hpid
      exact absurd hpid (by simp)
    · rw [mousePressed_drag_cancel ports mx my s origin hhit hcab]
      exact ⟨hnd, fun pid hpid => by simp at hpid⟩
  · rcases hcab : s.activeCable with _ | origin
    · rcases hfind : s.connections.find? (connMatchesPort port.id) with _ | ex
      · rw [mousePressed_idle_newcable ports mx my s port hhit hcab hfind]
        refine ⟨hnd, ?_⟩
        intro pid hpid c hc
        simp only at hpid
        have hpid' : port.id = pid := by
          have := hpid
          injection this
        subst hpid'
        have hnc := List.find?_eq_none.mp hfind c hc
        rw [← connMatchesPort_iff]
        simpa using hnc
      · rw [mousePressed_idle_pickup ports mx my s port ex hhit hcab hfind]
        obtain ⟨l1, l2, hsplit, hl1, hex⟩ :=
          find?_eq_some_split (connMatchesPort port.id) s.connections ex hfind
        refine ⟨noDouble_sublist (removeFirstSat_sublist _ _) hnd, ?_⟩
        intro pid hpid c' hc'
        simp only at hpid
        have hpid' : (if ex.fromId == port.id then ex.toId else ex.fromId) = pid := by
          injection hpid
        have hqex : portInConn pid ex := by
          rw [← hpid']
          by_cases hf : ex.fromId == port.id
          · simp only [hf, if_pos]
            right
            rfl
          · simp only [hf]
            left
            rfl
        have hc'' : c' ∈ l1 ++ l2 := by
          rw [hsplit, removeFirstSat_append_eq _ _ _ _ hl1 hex] at hc'
          exact hc'
        have hsep := noDouble_middle_separate l1 l2 ex (by rw [← hsplit]; exact hnd)
          c' hc''
        exact fun hpc => hsep pid ⟨hqex, hpc⟩
    · by_cases hconn : s.connections.any (connMatchesPort port.id) = true
      · rw [mousePressed_drag_connected ports mx my s port origin hhit hcab hconn]
        exact ⟨hnd, hcf⟩
      · have hconn' : s.connections.any (connMatchesPort port.id) = false := by
          cases h2 : s.connections.any (connMatchesPort port.id)
          · rfl
          · exact absurd h2 hconn
        have hnomatch : ∀ x ∈ s.connections, connMatchesPort port.id x = false := by
          intro x hx
          cases hcm : connMatchesPort port.id x
          · rfl
          · exact absurd (hconn' ▸ List.any_eq_true.mpr ⟨x, hx, hcm⟩) (by simp)
        rw [mousePressed_drag_connect ports mx my s port origin hhit hcab hconn']
        constructor
        · apply noDouble_append_new _ _ hnd
          intro x hx pid hpq
          obtain ⟨hpx, hpn⟩ := hpq
          rcases hpn with hp | hp
          · refine hcf pid ?_ x hx hpx
            rw [hcab]
            exact congrArg some hp
          · have : pid = port.id := hp.symm
            subst this
            exact (connMatchesPort_false_iff _ _).mp (hnomatch x hx) hpx
        · intro pid hpid
          simp at hpid

/-- keyPressed preserves the full invariant. -/
theorem keyPressed_invFull (keyCode : Nat) (s : PBState) (h : InvFull s) :
    InvFull (keyPressed keyCode s) := by
  unfold keyPressed
  split
  · split
    · exact ⟨h.1, fun pid hpid => by simp at hpid⟩
    · exact h
  · exact h

/-- clearAllPatches preserves the full invariant. -/
theorem clearAllPatches_invFull (s : PBState) (h : InvFull s) :
    InvFull (clearAllPatches s) := by
  unfold clearAllPatches
  split
  · exact ⟨List.Pairwise.nil, fun pid hpid c hc => by simp at hc⟩
  · exact h

/-- Every state reachable from the empty initial state satisfies the full
invariant. -/
theorem invFull_reachable (ports : List Port) (cableColors : List Color)
    (s : PBState) (h : Reachable ports (initState cableColors) s) :
    InvFull s := by
  induction h with
  | refl => exact ⟨List.Pairwise.nil, fun pid hpid c hc => by simp [initState] at hc⟩
  | tail hreach hstep ih =>
    cases hstep with
    | press mx my t => exact mousePressed_invFull _ _ _ _ ih
    | key keyCode t => exact keyPressed_invFull _ _ ih
    | clearAll t => exact clearAllPatches_invFull _ ih

/-- Pairwise separation bounds the number of connections containing a given
port id by one. -/
theorem noDouble_countP_le_one (conns : List Conn) (h : NoDoubleConnection conns)
    (pid : String) : conns.countP (connMatchesPort pid) ≤ 1 := by
  induction conns with
  | nil => simp
  | cons hd tl ih =>
    have h' := List.pairwise_cons.mp h
    by_cases hm : connMatchesPort pid hd = true
    · rw [List.countP_cons_of_pos _ _ hm]
      have hz : tl.countP (connMatchesPort pid) = 0 := by
        rw [List.countP_eq_zero]
        intro c hc hcm
        exact (h'.1 c hc) pid
          ⟨(connMatchesPort_iff _ _).mp hm, (connMatchesPort_iff _ _).mp hcm⟩
      rw [hz]
    · rw [List.countP_cons_of_neg _ _ (by simp [Bool.not_eq_true] at hm ⊢; exact hm)]
      exact ih h'.2

/-- Claim C1: in every state reachable from the initial no-connection state
by pointer presses, key presses and clear-all steps, no port participates
in more than one connection: each port id appears in the endpoint pair of
at most one element of the connection list. -/
theorem no_double_connection_reachable (ports : List Port)
    (cableColors : List Color) (s : PBState)
    (h : Reachable ports (initState cableColors) s) (pid : String) :
    s.connections.countP (connMatchesPort pid) ≤ 1 :=
  noDouble_countP_le_one _ (invFull_reachable ports cableColors s h).1 pid

/-- Witness for C1: a concrete two-press run (start a cable at port "a",
connect it at port "b") reaching a state with one connection. -/
theorem no_double_connection_reachable_witness :
    (mousePressed [⟨"a", 0, 0⟩, ⟨"b", 100, 0⟩] 100 0
      (mousePressed [⟨"a", 0, 0⟩, ⟨"b", 100, 0⟩] 0 0
        (initState [[100, 200, 255]]))).connections.countP
          (connMatchesPort "a") ≤ 1 :=
  no_double_connection_reachable [⟨"a", 0, 0⟩, ⟨"b", 100, 0⟩] [[100, 200, 255]] _
    (Reachable.tail (Reachable.tail (Reachable.refl _) (Step.press 0 0 _))
      (Step.press 100 0 _)) "a"

/-! ## Concrete-evaluation helpers

Mathlib's rational arithmetic does not reduce inside the kernel, so
concrete geometric facts are established with norm_num rather than decide;
the following lemmas prepare that. -/

/-- The concrete value of portRadius: scaled(9) = round(9 * 0.89) = 8. -/
theorem portRadius_eq : portRadius = 8 := by
  unfold portRadius scaled SCALE_FACTOR
  norm_num
  rw [show Rat.floor ((851:ℚ)/100) = ⌊(851:ℚ)/100⌋ from rfl]
  rw [show ⌊(851:ℚ)/100⌋ = 8 by rw [Int.floor_eq_iff]; norm_num]
  norm_num

/-- The concrete hit-test radius portRadius * 1.5 = 12. -/
theorem hitRadius_eq : portRadius * 3 / 2 = 12 := by
  rw [portRadius_eq]
  norm_num

/-- Membership of an adjacent index pair in consecutivePairs. -/
theorem consecutivePairs_mem_of_getElem? {α : Type} (l : List α) (k : Nat)
    (x y : α) (hx : l[k]? = some x) (hy : l[k+1]? = some y) :
    (x, y) ∈ consecutivePairs l := by
  induction l generalizing k with
  | nil => simp at hx
  | cons a tl ih =>
    cases tl with
    | nil =>
      cases k with
      | zero => simp at hy
      | succ k => simp at hx
    | cons b rest =>
      cases k with
      | zero =>
        simp only [List.getElem?_cons_zero, Option.some.injEq] at hx
        simp only [List.getElem?_cons_succ, List.getElem?_cons_zero,
          Option.some.injEq] at hy
        subst hx
        subst hy
        exact List.mem_cons_self _ _
      | succ k =>
        rw [List.getElem?_cons_succ] at hx
        rw [List.getElem?_cons_succ] at hy
        exact List.mem_cons_of_mem _ (ih k hx hy)

/-- The i-th sampled point of the cable curve, in closed form. -/
theorem bezierSamplePoints_getElem? (a b : ℚ × ℚ) (oy ox : ℚ) (i : Nat)
    (h : i < 51) :
    (bezierSamplePoints a b oy ox)[i]? = some
      (bezierPoint a.1 (lerp a.1 b.1 (1/4) + ox) (lerp a.1 b.1 (3/4) + ox)
        b.1 ((i : ℚ) / 50),
       bezierPoint a.2 (max a.2 b.2 + (39 + |a.1 - b.1| * (65/1000)) + oy)
         (max a.2 b.2 + (39 + |a.1 - b.1| * (65/1000)) + oy) b.2 ((i : ℚ) / 50)) := by
  unfold bezierSamplePoints
  rw [List.getElem?_map, List.getElem?_range h]
  rfl

/-! ## Claim C4 -/

/-- Counterexample to claim C4: while dragging from port "a" (which, as the
drag origin, is unconnected), a press that hits "a" itself is NOT a no-op:
the code appends a self-connection from "a" to "a" and returns to idle
instead of remaining in the drag (interactions.js has no same-port check
in its connect branch). -/
theorem drag_press_origin_not_noop :
    ¬ ((mousePressed [⟨"a", 0, 0⟩] 0 0
          ⟨[], some "a", none, 0, [[100, 200, 255]]⟩).connections
        = ([] : List Conn)
      ∧ (mousePressed [⟨"a", 0, 0⟩] 0 0
          ⟨[], some "a", none, 0, [[100, 200, 255]]⟩).activeCable
        = some "a") := by
  have hhit : getPortAt 0 0 [⟨"a", 0, 0⟩] (portRadius * 3 / 2)
      = some ⟨"a", 0, 0⟩ := by
    rw [hitRadius_eq]
    norm_num [getPortAt, distSq]
  rw [mousePressed_drag_connect [⟨"a", 0, 0⟩] 0 0
    ⟨[], some "a", none, 0, [[100, 200, 255]]⟩ ⟨"a", 0, 0⟩ "a" hhit rfl rfl]
  rintro ⟨h1, -⟩
  simp at h1

/-- Claim C4 amended: while dragging, a press that hits an
already-connected port changes nothing (the controller silently stays in
the drag with the same origin and color); but a press that hits the drag
origin itself (never connected while dragged) appends a self-connection
from the origin to the origin with the dragged color and returns to idle. -/
theorem drag_press_port_cases (ports : List Port) (mx my : ℚ) (s : PBState)
    (origin : String) (port : Port)
    (hcab : s.activeCable = some origin)
    (hhit : getPortAt mx my ports (portRadius * 3 / 2) = some port) :
    (s.connections.any (connMatchesPort port.id) = true →
      mousePressed ports mx my s = s)
    ∧ (s.connections.any (connMatchesPort port.id) = false → port.id = origin →
      (mousePressed ports mx my s).connections
        = s.connections ++ [⟨origin, origin,
            s.activeCableColor.getD (s.cableColors.getD s.currentColorIndex [])⟩]
      ∧ (mousePressed ports mx my s).activeCable = none) := by
  constructor
  · intro hconn
    exact mousePressed_drag_connected ports mx my s port origin hhit hcab hconn
  · intro hconn hpo
    rw [mousePressed_drag_connect ports mx my s port origin hhit hcab hconn]
    subst hpo
    exact ⟨rfl, rfl⟩

/-- Witness for the amended C4 at the counterexample's concrete state. -/
theorem drag_press_port_cases_witness :
    (mousePressed [⟨"a", 0, 0⟩] 0 0
        ⟨[], some "a", none, 0, [[100, 200, 255]]⟩).connections
      = [⟨"a", "a", [100, 200, 255]⟩]
    ∧ (mousePressed [⟨"a", 0, 0⟩] 0 0
        ⟨[], some "a", none, 0, [[100, 200, 255]]⟩).activeCable = none := by
  have hhit : getPortAt 0 0 [⟨"a", 0, 0⟩] (portRadius * 3 / 2)
      = some ⟨"a", 0, 0⟩ := by
    rw [hitRadius_eq]
    norm_num [getPortAt, distSq]
  have h := (drag_press_port_cases [⟨"a", 0, 0⟩] 0 0
      ⟨[], some "a", none, 0, [[100, 200, 255]]⟩ "a" ⟨"a", 0, 0⟩ rfl hhit).2
      rfl rfl
  exact ⟨h.1, h.2⟩

/-! ## Claim C5 -/

/-- Claim C5: in an idle state where port A is connected to port B by the
first connection containing A (under the C1 invariant, its only one), of
color c, a press hitting A removes that connection, re-enters dragging
with the other endpoint B as origin and c as the preserved cable color,
and the palette color index is not advanced. -/
theorem idle_pickup_preserves_identity (ports : List Port) (mx my : ℚ)
    (s : PBState) (A : Port) (B : String) (c : Color) (conn : Conn)
    (l1 l2 : List Conn)
    (hcab : s.activeCable = none)
    (hhit : getPortAt mx my ports (portRadius * 3 / 2) = some A)
    (hsplit : s.connections = l1 ++ conn :: l2)
    (hl1 : ∀ c' ∈ l1, connMatchesPort A.id c' = false)
    (hconn : connMatchesPort A.id conn = true)
    (hother : (if conn.fromId == A.id then conn.toId else conn.fromId) = B)
    (hcolor : conn.color = c) :
    (mousePressed ports mx my s).connections = l1 ++ l2
    ∧ (mousePressed ports mx my s).activeCable = some B
    ∧ (mousePressed ports mx my s).activeCableColor = some c
    ∧ (mousePressed ports mx my s).currentColorIndex = s.currentColorIndex := by
  have hfind : s.connections.find? (connMatchesPort A.id) = some conn := by
    rw [hsplit]
    exact find?_append_first _ _ _ _ hl1 hconn
  rw [mousePressed_idle_pickup ports mx my s A conn hhit hcab hfind]
  refine ⟨?_, ?_, ?_, rfl⟩
  · show removeFirstSat (connMatchesPort A.id) s.connections = l1 ++ l2
    rw [hsplit]
    exact removeFirstSat_append_eq _ _ _ _ hl1 hconn
  · show some (if conn.fromId == A.id then conn.toId else conn.fromId) = some B
    rw [hother]
  · show some conn.color = some c
    rw [hcolor]

/-- Witness for C5 at a concrete state: connection "a"-"b" of color
[1,2,3]; pressing at "a" picks it up from "b" with the color preserved and
palette index unchanged. -/
theorem idle_pickup_preserves_identity_witness :
    (mousePressed [⟨"a", 0, 0⟩, ⟨"b", 50, 0⟩] 0 0
        ⟨[⟨"a", "b", [1, 2, 3]⟩], none, none, 0, [[9, 9, 9]]⟩).connections = []
    ∧ (mousePressed [⟨"a", 0, 0⟩, ⟨"b", 50, 0⟩] 0 0
        ⟨[⟨"a", "b", [1, 2, 3]⟩], none, none, 0, [[9, 9, 9]]⟩).activeCable
      = some "b"
    ∧ (mousePressed [⟨"a", 0, 0⟩, ⟨"b", 50, 0⟩] 0 0
        ⟨[⟨"a", "b", [1, 2, 3]⟩], none, none, 0, [[9, 9, 9]]⟩).activeCableColor
      = some [1, 2, 3]
    ∧ (mousePressed [⟨"a", 0, 0⟩, ⟨"b", 50, 0⟩] 0 0
        ⟨[⟨"a", "b", [1, 2, 3]⟩], none, none, 0, [[9, 9, 9]]⟩).currentColorIndex
      = 0 := by
  have hhit : getPortAt 0 0 [⟨"a", 0, 0⟩, ⟨"b", 50, 0⟩] (portRadius * 3 / 2)
      = some ⟨"a", 0, 0⟩ := by
    rw [hitRadius_eq]
    norm_num [getPortAt, distSq]
  have h := idle_pickup_preserves_identity [⟨"a", 0, 0⟩, ⟨"b", 50, 0⟩] 0 0
    ⟨[⟨"a", "b", [1, 2, 3]⟩], none, none, 0, [[9, 9, 9]]⟩ ⟨"a", 0, 0⟩ "b"
    [1, 2, 3] ⟨"a", "b", [1, 2, 3]⟩ [] [] rfl hhit rfl
    (by simp) (by decide) (by decide) rfl
  exact ⟨h.1, h.2.1, h.2.2.1, h.2.2.2⟩

/-! ## Claim C6 -/

/-- Claim C6: in an idle state, a press that hits no port removes exactly
the first connection (in insertion order) whose sampled bezier curve lies
within the fixed 16-pixel threshold of the pointer, leaving every other
connection unchanged; when no connection's curve is within the threshold,
the state is unchanged. -/
theorem idle_miss_first_match_delete (ports : List Port) (mx my : ℚ)
    (s : PBState)
    (hcab : s.activeCable = none)
    (hmiss : getPortAt mx my ports (portRadius * 3 / 2) = none) :
    (∀ l1 conn l2, s.connections = l1 ++ conn :: l2 →
        (∀ c' ∈ l1, connHitTest ports mx my c' = false) →
        connHitTest ports mx my conn = true →
        (mousePressed ports mx my s).connections = l1 ++ l2)
    ∧ ((∀ c' ∈ s.connections, connHitTest ports mx my c' = false) →
        mousePressed ports mx my s = s) := by
  constructor
  · intro l1 conn l2 hsplit hl1 hconn
    rw [mousePressed_idle_miss ports mx my s hmiss hcab]
    show deleteFirstNearConnection ports mx my s.connections = l1 ++ l2
    rw [hsplit]
    exact deleteFirstNearConnection_append_eq _ _ _ _ _ _ hl1 hconn
  · intro hall
    rw [mousePressed_idle_miss ports mx my s hmiss hcab,
      deleteFirstNearConnection_all_false _ _ _ _ hall]

/-- Witness for C6 at a concrete state: ports "a" and "b" coincide at the
origin, their cable sags below them, and a press at (0, 25) — on the sagged
curve but outside every port's 12-pixel hit radius — deletes the first
(only) connection. -/
theorem idle_miss_first_match_delete_witness :
    (mousePressed [⟨"a", 0, 0⟩, ⟨"b", 0, 0⟩] 0 25
        ⟨[⟨"a", "b", [1, 2, 3]⟩], none, none, 0, []⟩).connections = [] := by
  have hmiss : getPortAt 0 25 [⟨"a", 0, 0⟩, ⟨"b", 0, 0⟩] (portRadius * 3 / 2)
      = none := by
    rw [hitRadius_eq]
    norm_num [getPortAt, distSq]
  have h25 := bezierSamplePoints_getElem? ((0:ℚ), (0:ℚ)) ((0:ℚ), (0:ℚ)) 0 0 25
    (by norm_num)
  have h26 := bezierSamplePoints_getElem? ((0:ℚ), (0:ℚ)) ((0:ℚ), (0:ℚ)) 0 0 26
    (by norm_num)
  have hmem := consecutivePairs_mem_of_getElem?
    (bezierSamplePoints ((0:ℚ), (0:ℚ)) ((0:ℚ), (0:ℚ)) 0 0) 25 _ _ h25 h26
  have hnear : isMouseNearBezierSegments ((0:ℚ), (0:ℚ)) ((0:ℚ), (0:ℚ)) 0 0 16 0 25
      = true := by
    unfold isMouseNearBezierSegments
    refine List.any_eq_true.mpr ⟨_, hmem, ?_⟩
    simp only [decide_eq_true_eq]
    norm_num [bezierPoint, lerp, distToSegmentSq]
  have hconn : connHitTest [⟨"a", 0, 0⟩, ⟨"b", 0, 0⟩] 0 25 ⟨"a", "b", [1, 2, 3]⟩
      = true := by
    unfold connHitTest
    rw [show ([⟨"a", 0, 0⟩, ⟨"b", 0, 0⟩] : List Port).find?
        (fun p => p.id == "a") = some ⟨"a", 0, 0⟩ by simp [List.find?]]
    rw [show ([⟨"a", 0, 0⟩, ⟨"b", 0, 0⟩] : List Port).find?
        (fun p => p.id == "b") = some ⟨"b", 0, 0⟩ by simp [List.find?]]
    exact hnear
  have h := (idle_miss_first_match_delete [⟨"a", 0, 0⟩, ⟨"b", 0, 0⟩] 0 25
      ⟨[⟨"a", "b", [1, 2, 3]⟩], none, none, 0, []⟩ rfl hmiss).1
      [] ⟨"a", "b", [1, 2, 3]⟩ [] rfl (by simp) hconn
  simpa using h

/-! ## Claim C9 -/

/-- Counterexample to claim C9: a draw tick that begins with every layer
flag false, visible rooms and an active cable marks the cable layer dirty
by itself (renderer.js computes significantMovement/activeCable inside the
tick and calls markLayerAsDirty) and then repaints that layer — the
scheduler does set a layer's dirty flag of its own accord, with no
external caller involved. -/
theorem scheduler_self_marks_dirty :
    (drawMarkPhase ⟨[], [], some "a", 0, 0, 0, 0, 0, 0, none, true⟩
        allClean).cable = true
    ∧ allClean.cable = false
    ∧ (draw ⟨[], [], some "a", 0, 0, 0, 0, 0, 0, none, true⟩ allClean).2
        = [Layer.cable] := by
  have hmark : drawMarkPhase ⟨[], [], some "a", 0, 0, 0, 0, 0, 0, none, true⟩
      allClean = { allClean with cable := true } := by
    unfold drawMarkPhase findClosestAvailablePort
    norm_num [markLayerAsDirty, allClean]
  refine ⟨by rw [hmark], rfl, ?_⟩
  show (drawRedrawPhase (drawMarkPhase
    ⟨[], [], some "a", 0, 0, 0, 0, 0, 0, none, true⟩ allClean)).2 = [Layer.cable]
  rw [hmark]
  rfl

/-- Claim C9 amended: the draw tick DOES mark flags of its own accord (the
cable layer on significant cursor movement or an active cable, the port
layer when the closest available port changed), but every flag it finds or
makes dirty it clears after repainting within the same tick, so the tick
ends with every layer's flag false; in particular any layer whose flag is
false when the tick begins still has a false flag when the tick ends. -/
theorem draw_tick_ends_all_clean (st : TickState) (f : DirtyFlags) :
    (draw st f).1 = allClean := by
  have hredraw : ∀ g : DirtyFlags, (drawRedrawPhase g).1 = allClean := by
    intro g
    obtain ⟨b1, b2, b3, b4, b5⟩ := g
    cases b1 <;> cases b2 <;> cases b3 <;> cases b4 <;> cases b5 <;> rfl
  unfold draw
  split
  · exact hredraw _
  · exact hredraw _

end PatchBay
